import Mathlib

/-!
Verification development for the Vevu quiz-gaming backend.

The Python sources (spinwheel.py, quiz.py, wallet.py, admin_routes.py,
question_service.py, models.py, config.py) are shallowly embedded below:
pure computations become Lean functions, the database session becomes an
explicit `AppState` record threaded through each operation, Python floats
holding currency become `ℚ`, and sources of randomness (secrets, SQL
random ordering, random.shuffle, random.sample) become explicit oracle
parameters constrained by hypotheses where a theorem needs them.
-/

namespace Vevu

/-! ## SHA-256 over byte lists (hashlib.sha256)

Faithful implementation of FIPS 180-4 SHA-256 on `List Nat` bytes, with all
32-bit words represented as `Nat` reduced modulo `2 ^ 32`. -/

namespace Sha256

def M32 : Nat := 4294967296

def rotr (x n : Nat) : Nat :=
  ((x >>> n) ||| (x <<< (32 - n))) % M32

def smallSigma0 (x : Nat) : Nat := (rotr x 7) ^^^ (rotr x 18) ^^^ (x >>> 3)

def smallSigma1 (x : Nat) : Nat := (rotr x 17) ^^^ (rotr x 19) ^^^ (x >>> 10)

def bigSigma0 (x : Nat) : Nat := (rotr x 2) ^^^ (rotr x 13) ^^^ (rotr x 22)

def bigSigma1 (x : Nat) : Nat := (rotr x 6) ^^^ (rotr x 11) ^^^ (rotr x 25)

def ch (e f g : Nat) : Nat := (e &&& f) ^^^ ((e ^^^ 4294967295) &&& g)

def maj (a b c : Nat) : Nat := (a &&& b) ^^^ (a &&& c) ^^^ (b &&& c)

/-- The 64 round constants of FIPS 180-4 (written in decimal; the first is
0x428a2f98 and the last 0xc67178f2). -/
def K : List Nat :=
  [1116352408, 1899447441, 3049323471, 3921009573, 961987163,
   1508970993, 2453635748, 2870763221, 3624381080, 310598401,
   607225278, 1426881987, 1925078388, 2162078206, 2614888103,
   3248222580, 3835390401, 4022224774, 264347078, 604807628,
   770255983, 1249150122, 1555081692, 1996064986, 2554220882,
   2821834349, 2952996808, 3210313671, 3336571891, 3584528711,
   113926993, 338241895, 666307205, 773529912, 1294757372,
   1396182291, 1695183700, 1986661051, 2177026350, 2456956037,
   2730485921, 2820302411, 3259730800, 3345764771, 3516065817,
   3600352804, 4094571909, 275423344, 430227734, 506948616,
   659060556, 883997877, 958139571, 1322822218, 1537002063,
   1747873779, 1955562222, 2024104815, 2227730452, 2361852424,
   2428436474, 2756734187, 3204031479, 3329325298]

/-- The eight initial hash values of FIPS 180-4 (decimal; the first is
0x6a09e667 and the last 0x5be0cd19). -/
def H0 : List Nat :=
  [1779033703, 3144134277, 1013904242, 2773480762,
   1359893119, 2600822924, 528734635, 1541459225]

/-- Big-endian byte decomposition of `n` into `k` bytes. -/
def beBytes (k n : Nat) : List Nat :=
  (List.range k).map (fun i => (n >>> (8 * (k - 1 - i))) % 256)

/-- FIPS padding: append 0x80, zeros, and the 64-bit big-endian bit length. -/
def padBytes (msg : List Nat) : List Nat :=
  let len := msg.length
  let zeros := (64 - ((len + 9) % 64)) % 64
  msg ++ [128] ++ List.replicate zeros 0 ++ beBytes 8 (len * 8)

/-- Group bytes into big-endian 32-bit words. -/
def toWords : List Nat → List Nat
  | a :: b :: c :: d :: rest => (((a * 256 + b) * 256 + c) * 256 + d) :: toWords rest
  | _ => []

/-- Group a word list into 16-word blocks. -/
def toBlocks16 : List Nat → List (List Nat)
  | w0 :: w1 :: w2 :: w3 :: w4 :: w5 :: w6 :: w7 ::
    w8 :: w9 :: w10 :: w11 :: w12 :: w13 :: w14 :: w15 :: rest =>
      [w0, w1, w2, w3, w4, w5, w6, w7, w8, w9, w10, w11, w12, w13, w14, w15]
        :: toBlocks16 rest
  | _ => []

/-- Message-schedule extension, carried in reverse order. -/
def extendRev (rev : List Nat) : Nat → List Nat
  | 0 => rev
  | k + 1 =>
    let w := (smallSigma1 (rev.getD 1 0) + rev.getD 6 0
              + smallSigma0 (rev.getD 14 0) + rev.getD 15 0) % M32
    extendRev (w :: rev) k

def schedule (block : List Nat) : List Nat :=
  (extendRev block.reverse 48).reverse

/-- One compression round; state is the 8-word list `[a,b,c,d,e,f,g,h]`. -/
def compressWord (st : List Nat) (kw : Nat × Nat) : List Nat :=
  match st with
  | [a, b, c, d, e, f, g, h] =>
    let t1 := (h + bigSigma1 e + ch e f g + kw.1 + kw.2) % M32
    let t2 := (bigSigma0 a + maj a b c) % M32
    [(t1 + t2) % M32, a, b, c, (d + t1) % M32, e, f, g]
  | other => other

def compressBlock (h : List Nat) (block : List Nat) : List Nat :=
  let st := (K.zip (schedule block)).foldl compressWord h
  (h.zip st).map (fun p => (p.1 + p.2) % M32)

def sha256Words (msg : List Nat) : List Nat :=
  (toBlocks16 (toWords (padBytes msg))).foldl compressBlock H0

/-- The 32-byte SHA-256 digest of a byte string. -/
def sha256Bytes (msg : List Nat) : List Nat :=
  ((sha256Words msg).map (beBytes 4)).flatten

end Sha256

/-! ## Hexadecimal digests and parsing (hashlib .hexdigest / int(_, 16)) -/

def hexChar (n : Nat) : Char :=
  if n < 10 then Char.ofNat (48 + n) else Char.ofNat (87 + n)

def byteHex (b : Nat) : List Char := [hexChar (b / 16), hexChar (b % 16)]

/-- Lower-case hex rendering of a byte list, as `.hexdigest()` produces. -/
def hexDigest (bytes : List Nat) : List Char := (bytes.map byteHex).flatten

def hexVal (c : Char) : Nat :=
  if 97 ≤ c.toNat then c.toNat - 87 else c.toNat - 48

/-- Evaluation of `int(cs, 16)` on a hex-digit string. -/
def parseHex (cs : List Char) : Nat :=
  cs.foldl (fun a c => 16 * a + hexVal c) 0

/-- Big-endian unsigned-integer value of a byte list. -/
def bytesBE (bs : List Nat) : Nat :=
  bs.foldl (fun a b => 256 * a + b) 0

/-! ## UTF-8 encoding (str.encode()) -/

def utf8Char (c : Char) : List Nat :=
  let n := c.toNat
  if n < 128 then [n]
  else if n < 2048 then [192 + n / 64, 128 + n % 64]
  else if n < 65536 then [224 + n / 4096, 128 + (n / 64) % 64, 128 + n % 64]
  else [240 + n / 262144, 128 + (n / 4096) % 64, 128 + (n / 64) % 64, 128 + n % 64]

def utf8Encode (s : String) : List Nat := (s.data.map utf8Char).flatten

/-! ## spinwheel.py — ProvablyFairSpin and the wheel configuration -/

structure WheelSegment where
  prize : Nat
  probability : Nat
  color : String
  label : String
deriving Repr, DecidableEq

def WHEEL_SEGMENTS : List WheelSegment :=
  [⟨10, 30, "#FF6B6B", "N10"⟩,
   ⟨20, 25, "#4ECDC4", "N20"⟩,
   ⟨50, 15, "#45B7D1", "N50"⟩,
   ⟨100, 10, "#96CEB4", "N100"⟩,
   ⟨200, 8, "#FFEAA7", "N200"⟩,
   ⟨500, 5, "#DDA0DD", "N500"⟩,
   ⟨1000, 4, "#F08080", "N1000"⟩,
   ⟨2000, 3, "#9ACD32", "N2000"⟩]

structure SpinResult where
  prize : Nat
  random_number : Nat
  hash_result : List Char
  segment : WheelSegment
deriving Repr, DecidableEq

/-- The cumulative-probability scan of `calculate_result`: return the first
segment whose cumulative upper bound (probabilities scaled by 100) exceeds
`rn`, or `none` when the scan falls through. -/
def pickSegment (rn : Nat) : Nat → List WheelSegment → Option WheelSegment
  | _, [] => none
  | cumulative, s :: rest =>
    if rn < cumulative + s.probability * 100 then some s
    else pickSegment rn (cumulative + s.probability * 100) rest

/-- Fallback segment `WHEEL_SEGMENTS[-1]`. -/
def lastSegment : WheelSegment := ⟨2000, 3, "#9ACD32", "N2000"⟩

/-- Model of `ProvablyFairSpin.calculate_result`: hash the colon-joined
server seed, client seed and nonce, take the first 8 hex characters of the
digest modulo 10000, and map through the wheel. -/
def calculate_result (server_seed client_seed : String) (nonce : Nat) : SpinResult :=
  let combined := server_seed ++ ":" ++ client_seed ++ ":" ++ toString nonce
  let hash_result := hexDigest (Sha256.sha256Bytes (utf8Encode combined))
  let random_number := parseHex (hash_result.take 8) % 10000
  match pickSegment random_number 0 WHEEL_SEGMENTS with
  | some seg => ⟨seg.prize, random_number, hash_result, seg⟩
  | none => ⟨lastSegment.prize, random_number, hash_result, lastSegment⟩

/-- Model of `ProvablyFairSpin.verify_spin`: re-run the draw and compare
the prize. -/
def verify_spin (server_seed client_seed : String) (nonce : Nat)
    (expected_prize : Nat) : Bool :=
  (calculate_result server_seed client_seed nonce).prize == expected_prize

-- Sanity checks of the embedding against an independent SHA-256 computation:
-- sha256("a:b:1") = 6cce7cb7... and 0x6cce7cb7 % 10000 = 1671, prize 10;
-- sha256("a:b:0") yields random number 5513, prize 50.
example : (calculate_result "a" "b" 1).random_number = 1671 := by decide
example : (calculate_result "a" "b" 0).prize = 50 := by decide

/-! ## config.py — platform constants

Currency values are Python floats in the source; they are embedded as `ℚ`
so that the decimal arithmetic of the spec scenarios is exact. -/

namespace Config

def PLATFORM_FEE : ℚ := 1 / 10

def MIN_STAKE : ℚ := 10

def MAX_STAKE : ℚ := 100000

def MIN_WITHDRAWAL : ℚ := 500

def MAX_WITHDRAWAL : ℚ := 5000000

def FREE_SPINS_DAILY : Nat := 10

def SPIN_COST : ℚ := 50

end Config

/-! ## models.py — table rows -/

structure QuestionRow where
  id : String
  category : String
  level : String
  question_text : String
  option_a : String
  option_b : String
  option_c : String
  option_d : String
  correct_answer : Nat
  points : Nat
  time_limit : Nat
  times_used : Nat
  correct_count : Nat
  wrong_count : Nat
  success_rate : ℚ
  is_active : Bool
deriving Repr, DecidableEq

/-- Model of `Question.update_stats`. -/
def update_stats (q : QuestionRow) (was_correct : Bool) : QuestionRow :=
  let q := { q with times_used := q.times_used + 1 }
  let q :=
    if was_correct then { q with correct_count := q.correct_count + 1 }
    else { q with wrong_count := q.wrong_count + 1 }
  { q with success_rate :=
      if 0 < q.times_used then ((q.correct_count : ℚ) / (q.times_used : ℚ)) * 100
      else 0 }

/-- Question constructor matching the SQLAlchemy column defaults: usage
counters and success rate start at zero, points 10, time limit 10, active. -/
def newQuestion (id category level question_text a b c d : String)
    (correct_answer : Nat) : QuestionRow :=
  ⟨id, category, level, question_text, a, b, c, d, correct_answer,
   10, 10, 0, 0, 0, 0, true⟩

structure UserAcct where
  id : String
  balance : ℚ
  total_earned : ℚ
  total_withdrawn : ℚ
  games_played : Nat
  wins : Nat
  free_spins : Nat
  is_online : Bool
  current_game_id : Option String
  current_game_type : Option String
deriving Repr, DecidableEq

structure GameRow where
  id : String
  game_code : String
  game_type : String
  status : String
  stake : ℚ
  platform_fee : ℚ
  total_pot : ℚ
  total_questions : Nat
  time_per_question : Nat
  created_by : String
  winner_id : Option String
  question_data : List (String × Nat × Nat)
  player_count : Nat
deriving Repr, DecidableEq

/-- Structured view of the spin-win transaction metadata written by
`spin_wheel` (server seed, client seed, nonce, random number). -/
structure SpinMeta where
  server_seed : String
  client_seed : String
  nonce : Nat
  random_number : Nat
deriving Repr, DecidableEq

structure Txn where
  id : String
  user_id : String
  reference : String
  type : String
  amount : ℚ
  fee : ℚ
  status : String
  game_id : Option String
  metadata : Option SpinMeta
deriving Repr, DecidableEq

/-- Row of `SpinHistory`.  The seed, nonce and hash columns are nullable in
models.py and are represented as options. -/
structure SpinRow where
  id : String
  user_id : String
  amount_won : ℚ
  used_free_spin : Bool
  spin_cost : ℚ
  server_seed : Option String
  client_seed : Option String
  nonce : Option Nat
  hash_result : Option (List Char)
deriving Repr, DecidableEq

/-- The database session state threaded through each operation, for the
single account the operations act on. -/
structure AppState where
  user : UserAcct
  questions : List QuestionRow
  games : List GameRow
  transactions : List Txn
  spins : List SpinRow
deriving Repr, DecidableEq

/-! ## question_service.py — QuestionService -/

structure ShuffledQuestion where
  id : String
  category : String
  level : String
  question : String
  options : List String
  original_correct : Nat
  shuffled_correct : Nat
  time_limit : Nat
  points : Nat
deriving Repr, DecidableEq

/-- Enumerated option pairs, `list(enumerate(original_options))`. -/
def optionPairs (q : QuestionRow) : List (Nat × String) :=
  ([q.option_a, q.option_b, q.option_c, q.option_d]).enum

/-- Model of `QuestionService._shuffle_question`.  The outcome of
`random.shuffle(pairs)` is passed in as `pairs`; the source's
`next(i for i, (idx, _) in enumerate(pairs) if idx == correct_idx)` is
modelled by `List.findIdx`, which agrees with the source whenever a pair
carrying the stored correct index is present. -/
def shuffle_question (q : QuestionRow) (pairs : List (Nat × String)) :
    ShuffledQuestion :=
  ⟨q.id, q.category, q.level, q.question_text,
   pairs.map Prod.snd, q.correct_answer,
   pairs.findIdx (fun p => p.1 == q.correct_answer),
   q.time_limit, q.points⟩

/-- The `level == level AND is_active` question query shared by the
question service and the quiz routes. -/
def eligibleQuestions (dbq : List QuestionRow) (level : String) : List QuestionRow :=
  dbq.filter (fun q => q.level == level && q.is_active)

/-- Candidate fetch of `get_questions_for_game`: the recency-filtered
over-fetch (3x the requested count, capped at 500), falling back to an
unfiltered fetch of twice the count when too few candidates remain. -/
def selectCandidates (dbq : List QuestionRow) (recent : List String)
    (level : String) (count : Nat) (avoid_recent : Bool)
    (rand : List QuestionRow → List QuestionRow) : List QuestionRow :=
  let base := eligibleQuestions dbq level
  let recent_ids := recent.drop (recent.length - 50)
  let filtered :=
    if avoid_recent && !recent_ids.isEmpty then
      base.filter (fun q => !(recent_ids.contains q.id))
    else base
  let fetch_count := min (count * 3) 500
  let candidates := (rand filtered).take fetch_count
  if candidates.length < count then (rand base).take (count * 2) else candidates

/-- Model of `QuestionService.get_questions_for_game` for one user.
`recent` is this user's entry in the service's `recent_questions` cache,
`rand` models the storage layer's `ORDER BY random()`, `samp` models
`random.sample`, and `shuf` models the per-question `random.shuffle`
(indexed by the question's position in the selected list).  Returns the
shuffled questions together with the updated recency list.  Note the
selection size `min count candidates.length`, taken verbatim from the
source: a short candidate pool yields a short result, not an error. -/
def get_questions_for_game (dbq : List QuestionRow) (recent : List String)
    (level : String) (count : Nat) (avoid_recent : Bool)
    (rand : List QuestionRow → List QuestionRow)
    (samp : List QuestionRow → Nat → List QuestionRow)
    (shuf : Nat → List (Nat × String) → List (Nat × String)) :
    List ShuffledQuestion × List String :=
  let candidates := selectCandidates dbq recent level count avoid_recent rand
  let selected := samp candidates (min count candidates.length)
  let shuffled :=
    selected.enum.map (fun p => shuffle_question p.2 (shuf p.1 (optionPairs p.2)))
  let newRecent := recent ++ selected.map QuestionRow.id
  (shuffled, newRecent.drop (newRecent.length - 100))

/-! ## quiz.py — quick play -/

/-- Model of `quiz.calculate_platform_fee`. -/
def calculate_platform_fee (amount : ℚ) : ℚ := amount * Config.PLATFORM_FEE

structure StartResp where
  game_id : String
  game_code : String
  questions : List ShuffledQuestion
  stake : ℚ
deriving Repr, DecidableEq

/-- Success path of `quick_play_start` (executed after the balance and
question-pool guards pass). -/
def quickPlayStartOk (s : AppState)
    (rand : List QuestionRow → List QuestionRow)
    (shuf : Nat → List (Nat × String) → List (Nat × String)) :
    AppState × StartResp :=
  let stake : ℚ := 100
  let qs := (rand (eligibleQuestions s.questions "quick")).take 10
  let shuffled :=
    qs.enum.map (fun p => shuffle_question p.2 (shuf p.1 (optionPairs p.2)))
  let question_map :=
    shuffled.map (fun sq => (sq.id, sq.original_correct, sq.shuffled_correct))
  let game_id := "game-" ++ toString s.games.length
  let game_code := "VEV" ++ toString s.games.length
  let game : GameRow :=
    ⟨game_id, game_code, "quick", "active", stake,
     calculate_platform_fee (stake * 3), stake * 3, 10, 10,
     s.user.id, none, question_map, 1⟩
  let user := { s.user with
    is_online := true
    current_game_id := some game_id
    current_game_type := some "quick"
    balance := s.user.balance - stake }
  let txn : Txn :=
    ⟨"txn-" ++ toString s.transactions.length, s.user.id,
     "STAKE-" ++ game_code, "stake", stake, 0, "completed", some game_id, none⟩
  ({ s with
       user := user
       games := s.games ++ [game]
       transactions := s.transactions ++ [txn] },
   ⟨game_id, game_code, shuffled, stake⟩)

/-- Model of `quiz.quick_play_start`.  `rand` models the `ORDER BY random()`
question query and `shuf` the inline per-question `random.shuffle` (the
inline shuffle is the same algorithm as `_shuffle_question`).  Fresh
primary keys and game codes are modelled by counters over the existing
rows; the activity log is not modelled. -/
def quick_play_start (s : AppState)
    (rand : List QuestionRow → List QuestionRow)
    (shuf : Nat → List (Nat × String) → List (Nat × String)) :
    Except String (AppState × StartResp) :=
  let stake : ℚ := 100
  if s.user.balance < stake then .error "Insufficient balance"
  else
    let qs := (rand (eligibleQuestions s.questions "quick")).take 10
    if qs.length < 10 then .error "Not enough questions available"
    else .ok (quickPlayStartOk s rand shuf)

structure AnswerIn where
  question_id : String
  answer_index : Nat
deriving Repr, DecidableEq

structure AnswerResult where
  question_id : String
  user_answer : Nat
  correct : Nat
  is_correct : Bool
deriving Repr, DecidableEq

structure SubmitResp where
  score : Nat
  total : Nat
  won : Bool
  prize : ℚ
  game_code : String
  results : List AnswerResult
deriving Repr, DecidableEq

/-- Scoring loop of `quick_play_submit`: walk the submitted answers, grade
each against the Question row's original correct index, apply
`update_stats`, and skip answers whose question id is unknown. -/
def scoreAnswers : List QuestionRow → List AnswerIn → Nat → List AnswerResult →
    List QuestionRow × Nat × List AnswerResult
  | qs, [], score, results => (qs, score, results)
  | qs, a :: rest, score, results =>
    match qs.find? (fun q => q.id == a.question_id) with
    | none => scoreAnswers qs rest score results
    | some q =>
      let is_correct := a.answer_index == q.correct_answer
      let qs := qs.map (fun r =>
        if r.id == a.question_id then update_stats r is_correct else r)
      scoreAnswers qs rest (if is_correct then score + 1 else score)
        (results ++ [⟨a.question_id, a.answer_index, q.correct_answer, is_correct⟩])

/-- Model of `quiz.quick_play_submit`.  The source performs no check on the
stored game status before settling; what stops a repeated win settlement is
the unique constraint on `Transaction.reference` (models.py): a second
winning submit builds a second transaction with the same
`WIN-<game_code>` reference, `db.session.commit()` raises an integrity
error, and the application's error handler rolls the session back,
discarding every mutation of the unit.  That commit-time behaviour is
modelled by the duplicate-reference guard below, whose error return
carries no state change (the rollback). -/
def quick_play_submit (s : AppState) (game_id : String)
    (user_answers : List AnswerIn) : Except String (AppState × SubmitResp) :=
  if game_id == "" || user_answers.isEmpty then .error "Missing required fields"
  else
    match s.games.find? (fun g => g.id == game_id) with
    | none => .error "Game not found"
    | some game =>
      if game.created_by != s.user.id then .error "Unauthorized"
      else
        let scored := scoreAnswers s.questions user_answers 0 []
        let questions := scored.1
        let score := scored.2.1
        let results := scored.2.2
        let won := score == 10
        if won && s.transactions.any
            (fun t => t.reference == "WIN-" ++ game.game_code) then
          .error "IntegrityError: duplicate transaction reference"
        else
        let gross_win := game.stake * 3
        let fee := calculate_platform_fee gross_win
        let prize : ℚ := if won then gross_win - fee else 0
        let user :=
          if won then
            { s.user with
              balance := s.user.balance + prize
              total_earned := s.user.total_earned + prize
              wins := s.user.wins + 1 }
          else s.user
        let transactions :=
          if won then
            s.transactions ++
              [⟨"txn-" ++ toString s.transactions.length, s.user.id,
                "WIN-" ++ game.game_code, "win", prize, fee, "completed",
                some game_id, none⟩]
          else s.transactions
        let games := s.games.map (fun g =>
          if g.id == game_id then
            { g with
              status := "completed"
              winner_id := if won then some s.user.id else g.winner_id }
          else g)
        let user := { user with
                      current_game_id := none
                      current_game_type := none
                      games_played := user.games_played + 1 }
        .ok ({ s with
                 user := user
                 questions := questions
                 games := games
                 transactions := transactions },
             ⟨score, 10, won, prize, game.game_code, results⟩)

/-! ## wallet.py and admin_routes.py — withdrawals -/

/-- Pending `withdraw` transaction created by the withdrawal reservation. -/
def withdrawTxn (s : AppState) (amount : ℚ) : Txn :=
  ⟨"txn-" ++ toString s.transactions.length, s.user.id,
   "WDR-" ++ toString s.transactions.length, "withdraw", amount, 0,
   "pending", none, none⟩

/-- Success path of the withdrawal reservation (executed after field,
bound and balance validation). -/
def initWithdrawalOk (s : AppState) (amount : ℚ) : AppState :=
  { s with
    transactions := s.transactions ++ [withdrawTxn s amount]
    user := { s.user with
              balance := s.user.balance - amount
              total_withdrawn := s.user.total_withdrawn + amount } }

/-- Model of the wallet withdrawal reservation route
(`/withdraw/initialize` in wallet.py): validate fields, min/max bounds and
balance, record a pending `withdraw` transaction, and hold the amount by
deducting it from the balance.  Bank details are carried only through the
truthiness validation; processing-day metadata and the external gateway
balance probe are not modelled.  An amount of zero is Python-falsy and hits
the missing-fields check. -/
def init_withdrawal (s : AppState) (amount : ℚ)
    (bank_code account_number account_name : String) : Except String AppState :=
  if amount == 0 || bank_code == "" || account_number == "" || account_name == "" then
    .error "All withdrawal details required"
  else if amount < Config.MIN_WITHDRAWAL then .error "Minimum withdrawal is 500"
  else if Config.MAX_WITHDRAWAL < amount then .error "Maximum withdrawal is 5000000"
  else if s.user.balance < amount then .error "Insufficient balance"
  else .ok (initWithdrawalOk s amount)

/-- Model of `admin_routes.process_transaction`: approve or reject a pending
withdrawal; rejection refunds the held amount to the owning user.  The
primary-key lookup `Transaction.query.get` is modelled as positional
indexing into the transaction table; the admin-note metadata update is not
modelled. -/
def process_transaction (s : AppState) (transaction_id : Nat) (action : String) :
    Except String AppState :=
  match s.transactions.get? transaction_id with
  | none => .error "Transaction not found"
  | some t =>
    if t.type != "withdraw" then .error "Only withdrawals can be processed"
    else if t.status != "pending" then .error "Transaction already processed"
    else if action == "approve" then
      .ok { s with transactions :=
              s.transactions.set transaction_id { t with status := "completed" } }
    else if action == "reject" then
      .ok { s with
        transactions := s.transactions.set transaction_id { t with status := "failed" }
        user :=
          if t.user_id == s.user.id then
            { s.user with balance := s.user.balance + t.amount }
          else s.user }
    else .error "Invalid action"

/-! ## spinwheel.py — spin endpoints -/

/-- Package pricing of `buy_spins` (500 for 10, 1000 for 25, 1500 for 50,
otherwise 50 per spin). -/
def buySpinsCost (quantity : Nat) : ℚ :=
  if quantity == 10 then 500
  else if quantity == 25 then 1000
  else if quantity == 50 then 1500
  else (quantity : ℚ) * 50

/-- Success path of `buy_spins`. -/
def buySpinsOk (s : AppState) (quantity : Nat) : AppState :=
  let cost := buySpinsCost quantity
  let txn : Txn :=
    ⟨"txn-" ++ toString s.transactions.length, s.user.id,
     "BUYSPIN-" ++ toString s.transactions.length, "spin_purchase", cost, 0,
     "completed", none, none⟩
  { s with
    user := { s.user with
              balance := s.user.balance - cost
              free_spins := s.user.free_spins + quantity }
    transactions := s.transactions ++ [txn] }

/-- Model of `spinwheel.buy_spins`: package pricing, balance check, balance
deduction, spin credit and a completed `spin_purchase` transaction. -/
def buy_spins (s : AppState) (quantity : Nat) : Except String AppState :=
  let cost := buySpinsCost quantity
  if s.user.balance < cost then .error "Insufficient balance"
  else .ok (buySpinsOk s quantity)

/-- Success path of `spin_wheel` (after the free-spin / purchase guards). -/
def spinWheelOk (s : AppState) (use_free_spin buy_spin : Bool)
    (server_seed client_seed : String) : AppState × ℚ :=
  let nonce := s.spins.length + 1
  let result := calculate_result server_seed client_seed nonce
  let prize : ℚ := (result.prize : ℚ)
  let user0 :=
    if use_free_spin then { s.user with free_spins := s.user.free_spins - 1 }
    else if buy_spin then { s.user with balance := s.user.balance - 50 }
    else s.user
  let user := { user0 with
                balance := user0.balance + prize
                total_earned := user0.total_earned + prize }
  let spin : SpinRow :=
    ⟨"spin-" ++ toString s.spins.length, s.user.id, prize, use_free_spin,
     if use_free_spin then 0 else 50, none, none, none, none⟩
  let txn : Txn :=
    ⟨"txn-" ++ toString s.transactions.length, s.user.id,
     "SPIN-" ++ toString s.transactions.length, "spin_win", prize, 0,
     "completed", none,
     some ⟨server_seed, client_seed, nonce, result.random_number⟩⟩
  ({ s with
       user := user
       spins := s.spins ++ [spin]
       transactions := s.transactions ++ [txn] }, prize)

/-- Model of `spinwheel.spin_wheel`.  The generated seeds are oracle inputs
standing for `generate_server_seed` and `generate_client_seed`; the daily
free-spin reset and authentication are not modelled.  The nonce is the
count of prior spin records plus one, as in the source.  Note that the
source stores the seed triple only in the transaction metadata: the
`SpinHistory` row is created without its seed, nonce and hash columns. -/
def spin_wheel (s : AppState) (use_free_spin buy_spin : Bool)
    (server_seed client_seed : String) : Except String (AppState × ℚ) :=
  if use_free_spin && s.user.free_spins == 0 then .error "No free spins left"
  else if !use_free_spin && buy_spin && s.user.balance < 50 then
    .error "Insufficient balance to buy spin"
  else .ok (spinWheelOk s use_free_spin buy_spin server_seed client_seed)

/-! ## Ledger operation language

The spec's Ledger primitives are inlined in the source as the recurring
`balance += / -= amount` plus completed-Transaction pattern; `credit` and
`debit` below embed that pattern, while reservation and settlement reuse
the withdrawal functions above.  Rejected operations leave the state
unchanged, as every source path checks before mutating. -/

inductive LedgerOp where
  | credit (amount : ℚ)
  | debit (amount : ℚ)
  | reserve (amount : ℚ)
  | settle (transaction_id : Nat) (approve : Bool)
deriving Repr, DecidableEq

/-- Completed `credit` transaction of the generic credit operation. -/
def creditTxn (s : AppState) (amount : ℚ) : Txn :=
  ⟨"txn-" ++ toString s.transactions.length, s.user.id,
   "CR-" ++ toString s.transactions.length, "credit", amount, 0,
   "completed", none, none⟩

/-- Generic completed credit: the `balance += amount` plus completed
Transaction pattern (game win, spin win, verified deposit). -/
def ledgerCredit (s : AppState) (amount : ℚ) : AppState :=
  { s with
    user := { s.user with balance := s.user.balance + amount }
    transactions := s.transactions ++ [creditTxn s amount] }

/-- Completed `debit` transaction of the generic debit operation. -/
def debitTxn (s : AppState) (amount : ℚ) : Txn :=
  ⟨"txn-" ++ toString s.transactions.length, s.user.id,
   "DR-" ++ toString s.transactions.length, "debit", amount, 0,
   "completed", none, none⟩

/-- Generic completed debit guarded by the balance check (stake deduction,
spin purchase). -/
def ledgerDebit (s : AppState) (amount : ℚ) : Except String AppState :=
  if s.user.balance < amount then .error "Insufficient balance"
  else
    .ok { s with
      user := { s.user with balance := s.user.balance - amount }
      transactions := s.transactions ++ [debitTxn s amount] }

def applyOp (s : AppState) : LedgerOp → AppState
  | .credit a => ledgerCredit s a
  | .debit a => (ledgerDebit s a).toOption.getD s
  | .reserve a => (init_withdrawal s a "044" "0000000000" "holder").toOption.getD s
  | .settle i ap =>
      (process_transaction s i (if ap then "approve" else "reject")).toOption.getD s

def applyOps (s : AppState) (ops : List LedgerOp) : AppState := ops.foldl applyOp s

/-- Fresh account state matching the User column defaults (balance 0). -/
def freshAccount (uid : String) : AppState :=
  ⟨⟨uid, 0, 0, 0, 0, 0, 10, false, none, none⟩, [], [], [], []⟩

def isCompletedCredit (t : Txn) : Bool :=
  t.status == "completed" &&
    (t.type == "credit" || t.type == "win" || t.type == "spin_win" || t.type == "deposit")

def isCompletedDebit (t : Txn) : Bool :=
  t.status == "completed" &&
    (t.type == "debit" || t.type == "stake" || t.type == "spin_purchase" ||
     t.type == "withdraw")

def isPendingWithdrawal (t : Txn) : Bool :=
  t.type == "withdraw" && t.status == "pending"

/-- Sum of the amounts of the transactions satisfying `f`. -/
def sumAmounts (f : Txn → Bool) (l : List Txn) : ℚ :=
  ((l.filter f).map Txn.amount).sum

/-! ## Auxiliary definitions used by the theorem statements -/

/-- The four option strings of a question in stored order. -/
def originalOptions (q : QuestionRow) : List String :=
  [q.option_a, q.option_b, q.option_c, q.option_d]

/-- Counter/rate invariant of `Question`: the usage counter splits into the
correct and wrong counters, and the stored success rate is the derived
percentage. -/
def statsInv (q : QuestionRow) : Prop :=
  q.times_used = q.correct_count + q.wrong_count ∧
  q.success_rate =
    (if 0 < q.times_used then ((q.correct_count : ℚ) / (q.times_used : ℚ)) * 100
     else 0)

/-- Credits in the ledger operation language carry non-negative amounts, as
every credited amount in the source does (prizes, verified deposits). -/
def creditOk : LedgerOp → Bool
  | .credit a => decide (0 ≤ a)
  | _ => true

/-- Ledger invariant: the balance is the completed credits minus the
completed debits minus the outstanding withdrawal reservations, it is
non-negative, and every transaction belongs to the account with pending
reservations carrying non-negative amounts. -/
def ledgerInv (s : AppState) : Prop :=
  s.user.balance = sumAmounts isCompletedCredit s.transactions
      - sumAmounts isCompletedDebit s.transactions
      - sumAmounts isPendingWithdrawal s.transactions
  ∧ 0 ≤ s.user.balance
  ∧ ∀ t ∈ s.transactions,
      t.user_id = s.user.id ∧ (isPendingWithdrawal t = true → 0 ≤ t.amount)

/-- Identity oracle for the uniform-random question ordering. -/
def randId : List QuestionRow → List QuestionRow := id

/-- Identity oracle for the per-question option shuffle. -/
def shufId : Nat → List (Nat × String) → List (Nat × String) := fun _ p => p

/-- Sampling oracle that takes the first `k` candidates (a valid outcome of
`random.sample`). -/
def sampTake : List QuestionRow → Nat → List QuestionRow := fun l k => l.take k

/-- Concrete quick-play question with correct answer at index 0. -/
def demoQuestion (i : Nat) : QuestionRow :=
  newQuestion ("q" ++ toString i) "general" "quick" ("question " ++ toString i)
    "A" "B" "C" "D" 0

/-- Scenario state for the quick-play win: one account with balance 100 and
a pool of exactly ten active quick questions. -/
def quickWinStart : AppState :=
  ⟨⟨"u1", 100, 0, 0, 0, 0, 10, false, none, none⟩,
   (List.range 10).map demoQuestion, [], [], []⟩

/-- All ten answers submitted with the original correct index. -/
def allCorrectAnswers : List AnswerIn :=
  (List.range 10).map (fun i => ⟨"q" ++ toString i, 0⟩)

/-- Start quick play, then submit the given answers once. -/
def startThenSubmit (s : AppState) (answers : List AnswerIn) :
    Except String (AppState × SubmitResp) :=
  match quick_play_start s randId shufId with
  | .error e => .error e
  | .ok (s1, r1) => quick_play_submit s1 r1.game_id answers

/-- Start quick play, submit `answers1`, then submit `answers2` on the same
(now completed) session. -/
def startSubmitSubmit (s : AppState) (answers1 answers2 : List AnswerIn) :
    Except String (AppState × SubmitResp) :=
  match quick_play_start s randId shufId with
  | .error e => .error e
  | .ok (s1, r1) =>
    match quick_play_submit s1 r1.game_id answers1 with
    | .error e => .error e
    | .ok (s2, _) => quick_play_submit s2 r1.game_id answers2

/-- All ten answers submitted with a wrong index (correct is 0). -/
def allWrongAnswers : List AnswerIn :=
  (List.range 10).map (fun i => ⟨"q" ++ toString i, 1⟩)

/-- Completed quick-play game row of an already-settled win. -/
def settledGame : GameRow :=
  ⟨"game-0", "VEV0", "quick", "completed", 100, 30, 300, 10, 10,
   "u1", some "u1", [], 1⟩

/-- State of an account whose quick-play win has already been settled: the
stake and win transactions are recorded and the session is completed. -/
def settledState : AppState :=
  ⟨⟨"u1", 270, 270, 0, 1, 1, 10, true, none, none⟩,
   (List.range 10).map demoQuestion,
   [settledGame],
   [⟨"txn-0", "u1", "STAKE-VEV0", "stake", 100, 0, "completed",
     some "game-0", none⟩,
    ⟨"txn-1", "u1", "WIN-VEV0", "win", 270, 30, "completed",
     some "game-0", none⟩],
   []⟩

/-- Account state holding balance 1000 with empty tables. -/
def richAccount : AppState :=
  ⟨⟨"u1", 1000, 0, 0, 0, 0, 10, false, none, none⟩, [], [], [], []⟩

/-- Question table with only three active quick questions. -/
def threeQuestionDb : List QuestionRow := (List.range 3).map demoQuestion

/-- Account with balance 1000 but only three quick questions available. -/
def richFewQuestions : AppState :=
  ⟨⟨"u1", 1000, 0, 0, 0, 0, 10, false, none, none⟩, threeQuestionDb, [], [], []⟩

/-- Concrete ledger run: a deposit-style credit, a stake-style debit, a
rejected withdrawal and an approved withdrawal. -/
def demoOps : List LedgerOp :=
  [.credit 1000, .debit 200, .reserve 600, .settle 2 false,
   .reserve 500, .settle 3 true]

/-! ## Lemmas about the hex digest and the draw -/

lemma hexVal_hexChar : ∀ d < 16, hexVal (hexChar d) = d := by decide

lemma sha256Bytes_lt_256 (msg : List Nat) :
    ∀ b ∈ Sha256.sha256Bytes msg, b < 256 := by
  intro b hb
  simp only [Sha256.sha256Bytes, List.mem_flatten, List.mem_map] at hb
  obtain ⟨l, ⟨w, _, hw⟩, hbl⟩ := hb
  subst hw
  simp only [Sha256.beBytes, List.mem_map, List.mem_range] at hbl
  obtain ⟨i, _, hi⟩ := hbl
  omega

lemma hexDigest_cons (b : Nat) (rest : List Nat) :
    hexDigest (b :: rest) = hexChar (b / 16) :: hexChar (b % 16) :: hexDigest rest := by
  simp [hexDigest, byteHex]

lemma foldl_hex_take (bytes : List Nat) :
    ∀ (k acc : Nat), (∀ b ∈ bytes, b < 256) →
      ((hexDigest bytes).take (2 * k)).foldl (fun a c => 16 * a + hexVal c) acc
        = (bytes.take k).foldl (fun a b => 256 * a + b) acc := by
  induction bytes with
  | nil => intro k acc _; simp [hexDigest]
  | cons b rest ih =>
    intro k acc hb
    cases k with
    | zero => simp
    | succ k' =>
      have hb0 : b < 256 := hb b (by simp)
      have hdiv : hexVal (hexChar (b / 16)) = b / 16 := hexVal_hexChar _ (by omega)
      have hmod : hexVal (hexChar (b % 16)) = b % 16 := hexVal_hexChar _ (by omega)
      have h2 : 2 * (k' + 1) = 2 * k' + 1 + 1 := by ring
      rw [hexDigest_cons, h2, List.take_succ_cons, List.take_succ_cons,
          List.take_succ_cons, List.foldl_cons, List.foldl_cons, List.foldl_cons,
          hdiv, hmod]
      have hacc : 16 * (16 * acc + b / 16) + b % 16 = 256 * acc + b := by omega
      rw [hacc]
      exact ih k' (256 * acc + b) (fun x hx => hb x (by simp [hx]))

lemma parseHex_take8_eq_bytesBE_take4 (bytes : List Nat)
    (hb : ∀ b ∈ bytes, b < 256) :
    parseHex ((hexDigest bytes).take 8) = bytesBE (bytes.take 4) := by
  have := foldl_hex_take bytes 4 0 hb
  simpa [parseHex, bytesBE] using this

lemma calculate_result_random_number (server_seed client_seed : String) (nonce : Nat) :
    (calculate_result server_seed client_seed nonce).random_number =
      parseHex ((hexDigest (Sha256.sha256Bytes (utf8Encode
        (server_seed ++ ":" ++ client_seed ++ ":" ++ toString nonce)))).take 8) % 10000 := by
  unfold calculate_result
  set rn := parseHex ((hexDigest (Sha256.sha256Bytes (utf8Encode
    (server_seed ++ ":" ++ client_seed ++ ":" ++ toString nonce)))).take 8) % 10000 with hrn
  cases h : pickSegment rn 0 WHEEL_SEGMENTS <;> simp [h]

/-- C1.  The fairness draw `calculate_result` is a pure deterministic
function of the server seed, client seed and nonce: repeated calls agree,
and its random number equals the first 4 bytes of the SHA-256 digest of the
colon-joined inputs read as a big-endian unsigned integer reduced modulo
10000, hence always lies in `[0, 9999]`. -/
theorem c1_draw_deterministic_and_mod10000 :
    ∀ (server_seed client_seed : String) (nonce : Nat),
      calculate_result server_seed client_seed nonce =
        calculate_result server_seed client_seed nonce ∧
      (calculate_result server_seed client_seed nonce).random_number =
        bytesBE ((Sha256.sha256Bytes (utf8Encode
          (server_seed ++ ":" ++ client_seed ++ ":" ++ toString nonce))).take 4)
          % 10000 ∧
      (calculate_result server_seed client_seed nonce).random_number < 10000 := by
  intro s c n
  refine ⟨rfl, ?_, ?_⟩
  · rw [calculate_result_random_number,
        parseHex_take8_eq_bytesBE_take4 _ (sha256Bytes_lt_256 _)]
  · rw [calculate_result_random_number]
    exact Nat.mod_lt _ (by norm_num)

/-- C5 (amended).  `verify_spin` succeeds exactly when re-running the draw
on the inputs it is given yields the claimed prize: in particular it
accepts every outcome produced by `calculate_result` on matching inputs,
but altered inputs are rejected only when their draw yields a different
prize — prize collisions between distinct inputs still verify. -/
theorem c5_verify_iff_same_prize :
    ∀ (server_seed client_seed : String) (nonce expected_prize : Nat),
      verify_spin server_seed client_seed nonce expected_prize = true ↔
        (calculate_result server_seed client_seed nonce).prize = expected_prize := by
  intro s c n p
  simp [verify_spin]

set_option maxRecDepth 8000 in
/-- C5 counterexample.  The claim that `verify_spin` returns false whenever
one of the three inputs differs from the original draw's is false: the
draws at nonce 1 and nonce 5 (seeds "a", "b") both pay prize 10, so the
outcome drawn at nonce 1 verifies against the altered nonce 5. -/
theorem c5_altered_nonce_still_verifies :
    (5 : Nat) ≠ 1 ∧
      verify_spin "a" "b" 5 ((calculate_result "a" "b" 1).prize) = true := by
  constructor
  · decide
  · decide

/-! ## Lemmas for the option shuffle -/

/-- C7.  For a question with four options and a stored correct index in
`[0,3]`, `shuffle_question` applied to any permutation of the enumerated
option pairs returns a permutation of the original options, and its
shuffled correct index points at the original correct option text. -/
theorem c7_shuffle_correct (q : QuestionRow) (pairs : List (Nat × String))
    (hperm : pairs.Perm (optionPairs q)) (hc : q.correct_answer < 4) :
    ((shuffle_question q pairs).options).Perm (originalOptions q) ∧
    (shuffle_question q pairs).shuffled_correct < 4 ∧
    ((shuffle_question q pairs).options)[(shuffle_question q pairs).shuffled_correct]?
      = (originalOptions q)[q.correct_answer]? := by
  have hopts : optionPairs q = (originalOptions q).enum := rfl
  have hlen4 : (originalOptions q).length = 4 := rfl
  have hcl : q.correct_answer < (originalOptions q).length := by
    rw [hlen4]; exact hc
  -- membership of the correct pair
  have hmem : (q.correct_answer, (originalOptions q)[q.correct_answer]) ∈ pairs := by
    rw [hperm.mem_iff, hopts, List.mem_enum_iff_getElem?]
    exact List.getElem?_eq_getElem hcl
  have hex : ∃ x ∈ pairs, (fun p => p.1 == q.correct_answer) x = true :=
    ⟨_, hmem, by simp⟩
  have hlt : pairs.findIdx (fun p => p.1 == q.correct_answer) < pairs.length :=
    List.findIdx_lt_length_of_exists hex
  have hfst : (pairs.get ⟨pairs.findIdx (fun p => p.1 == q.correct_answer), hlt⟩).1
      = q.correct_answer := by
    have := List.findIdx_get (w := hlt)
    simpa using this
  -- the index keys of the pairs are distinct
  have hnodup : (pairs.map Prod.fst).Nodup := by
    have hp := hperm.map Prod.fst
    rw [hopts, List.enum_map_fst] at hp
    exact hp.nodup_iff.mpr (List.nodup_range _)
  have heq : pairs.get ⟨pairs.findIdx (fun p => p.1 == q.correct_answer), hlt⟩
      = (q.correct_answer, (originalOptions q)[q.correct_answer]) :=
    List.inj_on_of_nodup_map hnodup (List.get_mem _ _ _) hmem (by simpa using hfst)
  have hoptsperm : ((shuffle_question q pairs).options).Perm (originalOptions q) := by
    have := hperm.map Prod.snd
    rw [hopts, List.enum_map_snd] at this
    exact this
  refine ⟨hoptsperm, ?_, ?_⟩
  · have : pairs.length = 4 := by
      have := hperm.length_eq
      simpa [hopts] using this
    simpa [shuffle_question, this] using hlt
  · show (pairs.map Prod.snd)[pairs.findIdx (fun p => p.1 == q.correct_answer)]? = _
    rw [List.getElem?_map, List.getElem?_eq_getElem hlt, Option.map_some']
    rw [List.get_eq_getElem] at heq
    rw [heq]
    exact (List.getElem?_eq_getElem hcl).symm

/-- C7 witness: a concrete question and a concrete shuffle outcome. -/
theorem c7_shuffle_correct_witness :
    ([((3 : Nat), "D"), (1, "B"), (2, "C"), (0, "A")].Perm
      (optionPairs (newQuestion "q1" "cat" "quick" "t" "A" "B" "C" "D" 2))) ∧
    ((shuffle_question (newQuestion "q1" "cat" "quick" "t" "A" "B" "C" "D" 2)
        [(3, "D"), (1, "B"), (2, "C"), (0, "A")]).options).Perm
      (originalOptions (newQuestion "q1" "cat" "quick" "t" "A" "B" "C" "D" 2)) := by
  refine ⟨by decide, ?_⟩
  exact (c7_shuffle_correct (newQuestion "q1" "cat" "quick" "t" "A" "B" "C" "D" 2)
    [(3, "D"), (1, "B"), (2, "C"), (0, "A")] (by decide) (by decide)).1

/-! ## Question statistics -/

lemma statsInv_newQuestion (id category level text a b c d : String) (correct : Nat) :
    statsInv (newQuestion id category level text a b c d correct) := by
  simp [statsInv, newQuestion]

lemma statsInv_update (q : QuestionRow) (b : Bool)
    (h : q.times_used = q.correct_count + q.wrong_count) :
    statsInv (update_stats q b) := by
  cases b <;> simp [statsInv, update_stats] <;> omega

lemma statsInv_foldl (bs : List Bool) :
    ∀ q : QuestionRow, statsInv q → statsInv (bs.foldl update_stats q) := by
  induction bs with
  | nil => intro q h; exact h
  | cons b rest ih =>
    intro q h
    exact ih _ (statsInv_update q b h.1)

/-- C10.  Each `update_stats` call increments `times_used` by one and
exactly one of the outcome counters, and along any call sequence starting
from a freshly constructed question every intermediate state satisfies
`times_used = correct_count + wrong_count` with `success_rate` equal to the
derived percentage (0 while unused). -/
theorem c10_update_stats_invariants :
    (∀ (q : QuestionRow),
      (∀ b : Bool, (update_stats q b).times_used = q.times_used + 1) ∧
      (update_stats q true).correct_count = q.correct_count + 1 ∧
      (update_stats q true).wrong_count = q.wrong_count ∧
      (update_stats q false).wrong_count = q.wrong_count + 1 ∧
      (update_stats q false).correct_count = q.correct_count) ∧
    (∀ (id category level text a b c d : String) (correct : Nat)
       (bs : List Bool) (k : Nat),
      statsInv ((bs.take k).foldl update_stats
        (newQuestion id category level text a b c d correct))) := by
  constructor
  · intro q
    refine ⟨fun b => ?_, rfl, rfl, rfl, rfl⟩
    cases b <;> rfl
  · intro id category level text a b c d correct bs k
    exact statsInv_foldl _ _ (statsInv_newQuestion id category level text a b c d correct)

/-! ## Quick-play scenarios

Batteries marks the rational operations irreducible; the concrete scenario
evaluations below locally restore default reducibility so that `decide`
can evaluate them. -/

section

attribute [local semireducible] Rat.add Rat.sub Rat.mul Rat.inv Rat.ofScientific

/-- C9.  Quick-play win scenario: starting from balance 100 with stake 100
and submitting all ten answers correctly completes the session with the
player as winner; the credited prize is stake × 3 × (1 − fee) = 270 and the
final balance is 270. -/
theorem c9_quick_play_win_scenario :
    (100 : ℚ) * 3 * (1 - Config.PLATFORM_FEE) = 270 ∧
    (startThenSubmit quickWinStart allCorrectAnswers).toOption.map
        (fun p => (p.2.won, p.2.prize, p.1.user.balance))
      = some (true, 270, 270) ∧
    (startThenSubmit quickWinStart allCorrectAnswers).toOption.map
        (fun p => p.1.games.map (fun g => (g.status, g.winner_id)))
      = some [("completed", some "u1")] := by
  refine ⟨by norm_num [Config.PLATFORM_FEE], ?_, ?_⟩
  · decide
  · decide

/-- C2 counterexample.  A second submit on an already-completed session is
not universally rejected: after the won session settles, resubmitting with
non-winning answers succeeds again (score 0, won false) instead of being
rejected as already settled — only the balance is untouched. -/
theorem c2_second_submit_not_rejected :
    (startSubmitSubmit quickWinStart allCorrectAnswers allWrongAnswers).toOption.map
        (fun p => (p.2.won, p.2.score, p.1.user.balance))
      = some (false, 0, 270) := by decide

/-- C2 (amended).  Win settlement executes at most once per session, but
the guard is the unique constraint on `Transaction.reference`, not a
session-status check: a submit that re-wins a session whose `WIN-<code>`
transaction already exists fails at commit with an integrity error and the
rolled-back unit leaves no state change; concretely, the winning
double-submit run settles once (one win transaction of 270, balance 270)
and its second submit is rejected by the duplicate reference. -/
theorem c2_settlement_exactly_once :
    (∀ (s : AppState) (game_id : String) (answers : List AnswerIn)
       (game : GameRow),
       s.games.find? (fun g => g.id == game_id) = some game →
       game.created_by = s.user.id →
       game_id ≠ "" → answers ≠ [] →
       (scoreAnswers s.questions answers 0 []).2.1 = 10 →
       s.transactions.any
           (fun t => t.reference == "WIN-" ++ game.game_code) = true →
       quick_play_submit s game_id answers
         = .error "IntegrityError: duplicate transaction reference") ∧
    startSubmitSubmit quickWinStart allCorrectAnswers allCorrectAnswers
      = .error "IntegrityError: duplicate transaction reference" ∧
    (startThenSubmit quickWinStart allCorrectAnswers).toOption.map
        (fun p => ((p.1.transactions.filter (fun t => t.type == "win")).length,
                   p.1.user.balance))
      = some (1, 270) := by
  refine ⟨?_, by rfl, by decide⟩
  intro s game_id answers game hfind hauth hgid hans hscore hdup
  have hge : (game_id == "") = false := beq_eq_false_iff_ne.mpr hgid
  have hae : answers.isEmpty = false := by
    cases answers with
    | nil => exact absurd rfl hans
    | cons a as => rfl
  have hc1 : ¬ ((game_id == "" || answers.isEmpty) = true) := by
    simp [hge, hae]
  have hc2 : ¬ ((game.created_by != s.user.id) = true) := by
    simp [hauth]
  have hc3 : (((scoreAnswers s.questions answers 0 []).2.1 == 10)
      && s.transactions.any
           (fun t => t.reference == "WIN-" ++ game.game_code)) = true := by
    simp [hscore, hdup]
  simp only [quick_play_submit]
  rw [if_neg hc1, hfind]
  dsimp only
  rw [if_neg hc2, if_pos hc3]

/-- C2 witness: on the already-settled state, resubmitting the winning
answers trips the duplicate-reference guard. -/
theorem c2_settlement_witness :
    (settledState.transactions.any
        (fun t => t.reference == "WIN-" ++ settledGame.game_code)) = true ∧
    quick_play_submit settledState "game-0" allCorrectAnswers
      = .error "IntegrityError: duplicate transaction reference" := by
  refine ⟨by decide, ?_⟩
  exact c2_settlement_exactly_once.1 settledState "game-0" allCorrectAnswers
    settledGame (by decide) (by decide) (by decide) (by decide) (by decide)
    (by decide)

/-! ## Debit guards (insufficient funds) -/

/-- C4 (amended).  Each balance-debiting operation (quick-play stake,
withdrawal reservation, spin purchase) rejects with an insufficient-balance
error when the balance is below the debited amount — the checks run before
any mutation, so the error return carries no state change — and, when the
balance suffices and the operation's own validations pass (ten questions
available for the stake; withdrawal amount within its min/max bounds),
decrements the balance by exactly the amount and appends the paired
transaction. -/
theorem c4_debit_guards_and_effects :
    (∀ (s : AppState) (rand : List QuestionRow → List QuestionRow)
       (shuf : Nat → List (Nat × String) → List (Nat × String)),
       s.user.balance < 100 →
       quick_play_start s rand shuf = .error "Insufficient balance") ∧
    (∀ (s : AppState) (rand : List QuestionRow → List QuestionRow)
       (shuf : Nat → List (Nat × String) → List (Nat × String)),
       100 ≤ s.user.balance →
       10 ≤ ((rand (eligibleQuestions s.questions "quick")).take 10).length →
       ∃ p, quick_play_start s rand shuf = .ok p ∧
         p.1.user.balance = s.user.balance - 100 ∧
         ∃ t, p.1.transactions = s.transactions ++ [t] ∧
           t.type = "stake" ∧ t.amount = 100 ∧ t.status = "completed") ∧
    (∀ (s : AppState) (amount : ℚ) (bank_code account_number account_name : String),
       bank_code ≠ "" → account_number ≠ "" → account_name ≠ "" →
       Config.MIN_WITHDRAWAL ≤ amount → amount ≤ Config.MAX_WITHDRAWAL →
       s.user.balance < amount →
       init_withdrawal s amount bank_code account_number account_name
         = .error "Insufficient balance") ∧
    (∀ (s : AppState) (amount : ℚ) (bank_code account_number account_name : String),
       bank_code ≠ "" → account_number ≠ "" → account_name ≠ "" →
       Config.MIN_WITHDRAWAL ≤ amount → amount ≤ Config.MAX_WITHDRAWAL →
       amount ≤ s.user.balance →
       ∃ s', init_withdrawal s amount bank_code account_number account_name
           = .ok s' ∧
         s'.user.balance = s.user.balance - amount ∧
         ∃ t, s'.transactions = s.transactions ++ [t] ∧
           t.type = "withdraw" ∧ t.amount = amount ∧ t.status = "pending") ∧
    (∀ (s : AppState) (quantity : Nat),
       s.user.balance < buySpinsCost quantity →
       buy_spins s quantity = .error "Insufficient balance") ∧
    (∀ (s : AppState) (quantity : Nat),
       buySpinsCost quantity ≤ s.user.balance →
       ∃ s', buy_spins s quantity = .ok s' ∧
         s'.user.balance = s.user.balance - buySpinsCost quantity ∧
         ∃ t, s'.transactions = s.transactions ++ [t] ∧
           t.type = "spin_purchase" ∧ t.amount = buySpinsCost quantity ∧
           t.status = "completed") := by
  refine ⟨?_, ?_, ?_, ?_, ?_, ?_⟩
  · intro s rand shuf h
    simp only [quick_play_start]
    rw [if_pos h]
  · intro s rand shuf hb hq
    have h1 : ¬ s.user.balance < 100 := not_lt.mpr hb
    have h2 : ¬ ((rand (eligibleQuestions s.questions "quick")).take 10).length < 10 :=
      not_lt.mpr hq
    have heq : quick_play_start s rand shuf = .ok (quickPlayStartOk s rand shuf) := by
      simp only [quick_play_start]
      rw [if_neg h1, if_neg h2]
    exact ⟨quickPlayStartOk s rand shuf, heq, rfl, _, rfl, rfl, rfl, rfl⟩
  · intro s amount bc an anm hbc han hanm hmin hmax hbal
    have h0 : ¬ (amount == 0 || bc == "" || an == "" || anm == "") = true := by
      simp only [Bool.or_eq_true, beq_iff_eq]
      push_neg
      refine ⟨⟨⟨?_, hbc⟩, han⟩, hanm⟩
      have : (0 : ℚ) < Config.MIN_WITHDRAWAL := by norm_num [Config.MIN_WITHDRAWAL]
      intro h
      rw [h] at hmin
      linarith
    have hm1 : ¬ amount < Config.MIN_WITHDRAWAL := not_lt.mpr hmin
    have hm2 : ¬ Config.MAX_WITHDRAWAL < amount := not_lt.mpr hmax
    simp only [init_withdrawal]
    rw [if_neg h0, if_neg hm1, if_neg hm2, if_pos hbal]
  · intro s amount bc an anm hbc han hanm hmin hmax hbal
    have h0 : ¬ (amount == 0 || bc == "" || an == "" || anm == "") = true := by
      simp only [Bool.or_eq_true, beq_iff_eq]
      push_neg
      refine ⟨⟨⟨?_, hbc⟩, han⟩, hanm⟩
      have : (0 : ℚ) < Config.MIN_WITHDRAWAL := by norm_num [Config.MIN_WITHDRAWAL]
      intro h
      rw [h] at hmin
      linarith
    have hm1 : ¬ amount < Config.MIN_WITHDRAWAL := not_lt.mpr hmin
    have hm2 : ¬ Config.MAX_WITHDRAWAL < amount := not_lt.mpr hmax
    have hm3 : ¬ s.user.balance < amount := not_lt.mpr hbal
    have heq : init_withdrawal s amount bc an anm = .ok (initWithdrawalOk s amount) := by
      simp only [init_withdrawal]
      rw [if_neg h0, if_neg hm1, if_neg hm2, if_neg hm3]
    exact ⟨initWithdrawalOk s amount, heq, rfl, _, rfl, rfl, rfl, rfl⟩
  · intro s quantity h
    simp only [buy_spins]
    rw [if_pos h]
  · intro s quantity h
    have h1 : ¬ s.user.balance < buySpinsCost quantity := not_lt.mpr h
    have heq : buy_spins s quantity = .ok (buySpinsOk s quantity) := by
      simp only [buy_spins]
      rw [if_neg h1]
    exact ⟨buySpinsOk s quantity, heq, rfl, _, rfl, rfl, rfl, rfl⟩

/-- C4 counterexample.  The unqualified claim "if the balance is sufficient
the operation decrements the balance" fails: with balance 1000 a withdrawal
of 100 is amply funded yet rejected by the minimum-withdrawal bound, with
no balance change. -/
theorem c4_sufficient_balance_withdrawal_rejected :
    (100 : ℚ) ≤ richAccount.user.balance ∧
    init_withdrawal richAccount 100 "044" "0000000000" "holder"
      = .error "Minimum withdrawal is 500" := by
  refine ⟨by decide, ?_⟩
  rfl

/-- C4 witness: the guard fires on a fresh (zero-balance) account, and a
bounded withdrawal against a funded account reserves exactly its amount. -/
theorem c4_debit_guards_witness :
    ((freshAccount "u1").user.balance < 100 ∧
      quick_play_start (freshAccount "u1") randId shufId
        = .error "Insufficient balance") ∧
    (Config.MIN_WITHDRAWAL ≤ (500 : ℚ) ∧ (500 : ℚ) ≤ richAccount.user.balance ∧
      ∃ s', init_withdrawal richAccount 500 "044" "0000000000" "holder" = .ok s' ∧
        s'.user.balance = richAccount.user.balance - 500 ∧
        ∃ t, s'.transactions = richAccount.transactions ++ [t] ∧
          t.type = "withdraw" ∧ t.amount = 500 ∧ t.status = "pending") := by
  constructor
  · exact ⟨by decide, c4_debit_guards_and_effects.1 (freshAccount "u1") randId shufId
      (by decide)⟩
  · refine ⟨by decide, by decide, ?_⟩
    exact c4_debit_guards_and_effects.2.2.2.1 richAccount 500 "044" "0000000000"
      "holder" (by decide) (by decide) (by decide) (by decide) (by decide) (by decide)

/-! ## Question-pool capacity -/

lemma selectCandidates_length_of_small (dbq : List QuestionRow)
    (recent : List String) (level : String) (count : Nat) (avoid : Bool)
    (rand : List QuestionRow → List QuestionRow)
    (hrand : ∀ l : List QuestionRow, (rand l).Perm l)
    (hlt : (eligibleQuestions dbq level).length < count) :
    (selectCandidates dbq recent level count avoid rand).length
      = (eligibleQuestions dbq level).length := by
  have hfl : ∀ filtered : List QuestionRow,
      filtered.length ≤ (eligibleQuestions dbq level).length →
      ((rand filtered).take (min (count * 3) 500)).length < count := by
    intro filtered hf
    have htake : ((rand filtered).take (min (count * 3) 500)).length
        ≤ filtered.length := by
      rw [List.length_take, (hrand filtered).length_eq]
      omega
    exact lt_of_le_of_lt htake (lt_of_le_of_lt hf hlt)
  have hlen : ((rand (eligibleQuestions dbq level)).take (count * 2)).length
      = (eligibleQuestions dbq level).length := by
    rw [List.length_take, (hrand _).length_eq]
    omega
  simp only [selectCandidates]
  split
  · rw [if_pos (hfl _ (List.length_filter_le _ _))]
    exact hlen
  · rw [if_pos (hfl _ (le_refl _))]
    exact hlen

/-- C6 (amended).  When the active pool of the requested level holds fewer
questions than requested, `get_questions_for_game` raises no capacity
error: it silently returns exactly the available (smaller) number of
questions.  Only the quick-play start route itself rejects, with "Not
enough questions available", when its direct query returns fewer than ten
questions. -/
theorem c6_selection_truncates_route_errors :
    (∀ (dbq : List QuestionRow) (recent : List String) (level : String)
       (count : Nat) (avoid : Bool)
       (rand : List QuestionRow → List QuestionRow)
       (samp : List QuestionRow → Nat → List QuestionRow)
       (shuf : Nat → List (Nat × String) → List (Nat × String)),
       (∀ l : List QuestionRow, (rand l).Perm l) →
       (∀ (l : List QuestionRow) (k : Nat), k ≤ l.length → (samp l k).length = k) →
       (eligibleQuestions dbq level).length < count →
       (get_questions_for_game dbq recent level count avoid rand samp shuf).1.length
         = (eligibleQuestions dbq level).length) ∧
    (∀ (s : AppState) (rand : List QuestionRow → List QuestionRow)
       (shuf : Nat → List (Nat × String) → List (Nat × String)),
       100 ≤ s.user.balance →
       ((rand (eligibleQuestions s.questions "quick")).take 10).length < 10 →
       quick_play_start s rand shuf = .error "Not enough questions available") := by
  constructor
  · intro dbq recent level count avoid rand samp shuf hrand hsamp hlt
    have hcand := selectCandidates_length_of_small dbq recent level count avoid
      rand hrand hlt
    simp only [get_questions_for_game]
    rw [List.length_map, List.enum_length,
        hsamp _ _ (Nat.min_le_right _ _), hcand]
    omega
  · intro s rand shuf hb hq
    have h1 : ¬ s.user.balance < 100 := not_lt.mpr hb
    simp only [quick_play_start]
    rw [if_neg h1, if_pos hq]

/-- C6 counterexample.  With three active quick questions and a request for
five, the service returns three questions and signals nothing. -/
theorem c6_silent_truncation_example :
    (eligibleQuestions threeQuestionDb "quick").length = 3 ∧
    (get_questions_for_game threeQuestionDb [] "quick" 5 true randId sampTake
        shufId).1.length = 3 := by
  exact ⟨by decide, by decide⟩

/-- C6 witness: the amended theorem applied to the three-question pool and
to a funded account whose question table is too small. -/
theorem c6_selection_witness :
    ((eligibleQuestions threeQuestionDb "quick").length < 5 ∧
      (get_questions_for_game threeQuestionDb [] "quick" 5 true randId sampTake
          shufId).1.length = (eligibleQuestions threeQuestionDb "quick").length) ∧
    (100 ≤ richFewQuestions.user.balance ∧
      quick_play_start richFewQuestions randId shufId
        = .error "Not enough questions available") := by
  constructor
  · refine ⟨by decide, ?_⟩
    exact c6_selection_truncates_route_errors.1 threeQuestionDb [] "quick" 5 true
      randId sampTake shufId (fun l => List.Perm.refl l)
      (fun l k h => by simp [sampTake, List.length_take, Nat.min_eq_left h])
      (by decide)
  · refine ⟨by decide, ?_⟩
    exact c6_selection_truncates_route_errors.2 richFewQuestions randId shufId
      (by decide) (by decide)

/-! ## Spin records and fairness reproduction -/

/-- C8 (amended).  A successful spin appends exactly one spin record and
one `spin_win` transaction; the seed triple and drawn random number are
persisted in the transaction's metadata (not on the spin record, whose
seed, nonce and hash columns stay unset), and re-running the fairness draw
on that triple reproduces the recorded amount won. -/
theorem c8_spin_metadata_reproduces_amount :
    ∀ (s : AppState) (use_free buy : Bool) (srv cli : String),
      (use_free = true → 0 < s.user.free_spins) →
      (use_free = false → buy = true → 50 ≤ s.user.balance) →
      ∃ p, spin_wheel s use_free buy srv cli = .ok p ∧
        ∃ rec txn, p.1.spins = s.spins ++ [rec] ∧
          p.1.transactions = s.transactions ++ [txn] ∧
          txn.type = "spin_win" ∧
          txn.metadata = some ⟨srv, cli, s.spins.length + 1,
            (calculate_result srv cli (s.spins.length + 1)).random_number⟩ ∧
          rec.amount_won = ((calculate_result srv cli (s.spins.length + 1)).prize : ℚ) ∧
          txn.amount = rec.amount_won ∧
          rec.server_seed = none ∧ rec.client_seed = none ∧ rec.nonce = none := by
  intro s uf b srv cli h1 h2
  have heq : spin_wheel s uf b srv cli = .ok (spinWheelOk s uf b srv cli) := by
    simp only [spin_wheel]
    have g1 : ¬ (uf && s.user.free_spins == 0) = true := by
      cases uf
      · simp
      · simp only [Bool.true_and, beq_iff_eq]
        exact Nat.pos_iff_ne_zero.mp (h1 rfl)
    have g2 : ¬ (!uf && b && decide (s.user.balance < 50)) = true := by
      cases uf
      · cases b
        · simp
        · simp only [Bool.not_false, Bool.true_and, decide_eq_true_eq]
          exact not_lt.mpr (h2 rfl rfl)
      · simp
    rw [if_neg g1, if_neg g2]
  exact ⟨spinWheelOk s uf b srv cli, heq,
    _, _, rfl, rfl, rfl, rfl, rfl, rfl, rfl, rfl, rfl⟩

/-- C8 counterexample.  The persisted `SpinHistory` row does not carry the
seed triple: after a concrete spin its seed and nonce columns are unset
(the triple lives only in the transaction metadata). -/
theorem c8_spin_record_lacks_seed_triple :
    (spin_wheel richAccount true false "a" "b").toOption.map
        (fun p => p.1.spins.map (fun r => (r.server_seed, r.client_seed, r.nonce)))
      = some [(none, none, none)] := by decide

/-- C8 witness: a concrete free spin on a funded account. -/
theorem c8_spin_metadata_witness :
    0 < richAccount.user.free_spins ∧
    ∃ p, spin_wheel richAccount true false "a" "b" = .ok p ∧
      ∃ rec txn, p.1.spins = richAccount.spins ++ [rec] ∧
        p.1.transactions = richAccount.transactions ++ [txn] ∧
        txn.type = "spin_win" ∧
        txn.metadata = some ⟨"a", "b", richAccount.spins.length + 1,
          (calculate_result "a" "b" (richAccount.spins.length + 1)).random_number⟩ ∧
        rec.amount_won
          = ((calculate_result "a" "b" (richAccount.spins.length + 1)).prize : ℚ) ∧
        txn.amount = rec.amount_won ∧
        rec.server_seed = none ∧ rec.client_seed = none ∧ rec.nonce = none := by
  exact ⟨by decide, c8_spin_metadata_reproduces_amount richAccount true false "a" "b"
    (fun _ => by decide) (by decide)⟩

/-! ## Ledger conservation -/

lemma sumAmounts_cons (f : Txn → Bool) (t : Txn) (l : List Txn) :
    sumAmounts f (t :: l)
      = (if f t = true then t.amount else 0) + sumAmounts f l := by
  simp only [sumAmounts, List.filter_cons]
  split <;> simp

lemma sumAmounts_append_singleton (f : Txn → Bool) (l : List Txn) (t : Txn) :
    sumAmounts f (l ++ [t])
      = sumAmounts f l + (if f t = true then t.amount else 0) := by
  simp only [sumAmounts, List.filter_append, List.map_append, List.sum_append]
  congr 1
  by_cases h : f t = true <;> simp [List.filter_cons, h]

lemma sumAmounts_set (f : Txn → Bool) (l : List Txn) (x : Txn) :
    ∀ (n : Nat) (h : n < l.length),
      sumAmounts f (l.set n x)
          + (if f (l.get ⟨n, h⟩) = true then (l.get ⟨n, h⟩).amount else 0)
        = sumAmounts f l + (if f x = true then x.amount else 0) := by
  induction l with
  | nil => intro n h; simp at h
  | cons a as ih =>
    intro n h
    cases n with
    | zero =>
      show sumAmounts f (x :: as) + _ = _
      rw [sumAmounts_cons, sumAmounts_cons]
      show _ + (if f a = true then a.amount else 0) = _
      ring
    | succ m =>
      have hm : m < as.length := by simpa using h
      show sumAmounts f (a :: as.set m x) + _ = _
      rw [sumAmounts_cons, sumAmounts_cons]
      have hrec := ih m hm
      show _ + (if f (as.get ⟨m, hm⟩) = true then (as.get ⟨m, hm⟩).amount else 0) = _
      linarith

lemma ledgerInv_freshAccount (uid : String) : ledgerInv (freshAccount uid) := by
  refine ⟨?_, le_refl 0, ?_⟩ <;> simp [freshAccount, sumAmounts]

lemma ledgerInv_credit (s : AppState) (a : ℚ) (ha : 0 ≤ a) (h : ledgerInv s) :
    ledgerInv (ledgerCredit s a) := by
  obtain ⟨heq, hnn, htx⟩ := h
  refine ⟨?_, ?_, ?_⟩
  · show s.user.balance + a = _
    rw [show (ledgerCredit s a).transactions = s.transactions ++ [creditTxn s a] from rfl,
        sumAmounts_append_singleton, sumAmounts_append_singleton,
        sumAmounts_append_singleton,
        show isCompletedCredit (creditTxn s a) = true from rfl,
        show isCompletedDebit (creditTxn s a) = false from rfl,
        show isPendingWithdrawal (creditTxn s a) = false from rfl]
    simp only [if_true, Bool.false_eq_true, if_false]
    show s.user.balance + a
        = sumAmounts isCompletedCredit s.transactions + (creditTxn s a).amount
          - (sumAmounts isCompletedDebit s.transactions + 0)
          - (sumAmounts isPendingWithdrawal s.transactions + 0)
    show s.user.balance + a
        = sumAmounts isCompletedCredit s.transactions + a
          - (sumAmounts isCompletedDebit s.transactions + 0)
          - (sumAmounts isPendingWithdrawal s.transactions + 0)
    linarith
  · show 0 ≤ s.user.balance + a
    linarith
  · intro t ht
    rcases List.mem_append.mp ht with hmem | hone
    · exact htx t hmem
    · rw [List.mem_singleton.mp hone]
      exact ⟨rfl, fun hcontra => by simp [isPendingWithdrawal, creditTxn] at hcontra⟩

lemma ledgerInv_debit (s : AppState) (a : ℚ) (h : ledgerInv s) :
    ledgerInv ((ledgerDebit s a).toOption.getD s) := by
  obtain ⟨heq, hnn, htx⟩ := h
  by_cases hb : s.user.balance < a
  · simp only [ledgerDebit, if_pos hb]
    exact ⟨heq, hnn, htx⟩
  · simp only [ledgerDebit, if_neg hb]
    refine ⟨?_, ?_, ?_⟩
    · show s.user.balance - a
          = sumAmounts isCompletedCredit (s.transactions ++ [debitTxn s a])
            - sumAmounts isCompletedDebit (s.transactions ++ [debitTxn s a])
            - sumAmounts isPendingWithdrawal (s.transactions ++ [debitTxn s a])
      rw [sumAmounts_append_singleton, sumAmounts_append_singleton,
          sumAmounts_append_singleton,
          show isCompletedCredit (debitTxn s a) = false from rfl,
          show isCompletedDebit (debitTxn s a) = true from rfl,
          show isPendingWithdrawal (debitTxn s a) = false from rfl]
      simp only [if_true, Bool.false_eq_true, if_false]
      show s.user.balance - a
          = sumAmounts isCompletedCredit s.transactions + 0
            - (sumAmounts isCompletedDebit s.transactions + (debitTxn s a).amount)
            - (sumAmounts isPendingWithdrawal s.transactions + 0)
      show s.user.balance - a
          = sumAmounts isCompletedCredit s.transactions + 0
            - (sumAmounts isCompletedDebit s.transactions + a)
            - (sumAmounts isPendingWithdrawal s.transactions + 0)
      linarith
    · show 0 ≤ s.user.balance - a
      have := not_lt.mp hb
      linarith
    · intro t ht
      have ht' : t ∈ s.transactions ++ [debitTxn s a] := ht
      rcases List.mem_append.mp ht' with hmem | hone
      · exact htx t hmem
      · rw [List.mem_singleton.mp hone]
        exact ⟨rfl, fun hcontra => by simp [isPendingWithdrawal, debitTxn] at hcontra⟩

lemma ledgerInv_reserve (s : AppState) (a : ℚ) (h : ledgerInv s) :
    ledgerInv ((init_withdrawal s a "044" "0000000000" "holder").toOption.getD s) := by
  obtain ⟨heq, hnn, htx⟩ := h
  simp only [init_withdrawal]
  by_cases h0 : (a == 0 || "044" == "" || "0000000000" == "" || "holder" == "") = true
  · rw [if_pos h0]; exact ⟨heq, hnn, htx⟩
  · rw [if_neg h0]
    by_cases h1 : a < Config.MIN_WITHDRAWAL
    · rw [if_pos h1]; exact ⟨heq, hnn, htx⟩
    · rw [if_neg h1]
      by_cases h2 : Config.MAX_WITHDRAWAL < a
      · rw [if_pos h2]; exact ⟨heq, hnn, htx⟩
      · rw [if_neg h2]
        by_cases h3 : s.user.balance < a
        · rw [if_pos h3]; exact ⟨heq, hnn, htx⟩
        · rw [if_neg h3]
          have hmin : Config.MIN_WITHDRAWAL ≤ a := not_lt.mp h1
          have ha : 0 ≤ a := by
            have : (0 : ℚ) ≤ Config.MIN_WITHDRAWAL := by
              norm_num [Config.MIN_WITHDRAWAL]
            linarith
          refine ⟨?_, ?_, ?_⟩
          · show s.user.balance - a
                = sumAmounts isCompletedCredit (s.transactions ++ [withdrawTxn s a])
                  - sumAmounts isCompletedDebit (s.transactions ++ [withdrawTxn s a])
                  - sumAmounts isPendingWithdrawal
                      (s.transactions ++ [withdrawTxn s a])
            rw [sumAmounts_append_singleton, sumAmounts_append_singleton,
                sumAmounts_append_singleton,
                show isCompletedCredit (withdrawTxn s a) = false from rfl,
                show isCompletedDebit (withdrawTxn s a) = false from rfl,
                show isPendingWithdrawal (withdrawTxn s a) = true from rfl]
            simp only [if_true, Bool.false_eq_true, if_false]
            show s.user.balance - a
                = sumAmounts isCompletedCredit s.transactions + 0
                  - (sumAmounts isCompletedDebit s.transactions + 0)
                  - (sumAmounts isPendingWithdrawal s.transactions
                      + (withdrawTxn s a).amount)
            show s.user.balance - a
                = sumAmounts isCompletedCredit s.transactions + 0
                  - (sumAmounts isCompletedDebit s.transactions + 0)
                  - (sumAmounts isPendingWithdrawal s.transactions + a)
            linarith
          · show 0 ≤ s.user.balance - a
            have := not_lt.mp h3
            linarith
          · intro t ht
            have ht' : t ∈ s.transactions ++ [withdrawTxn s a] := ht
            rcases List.mem_append.mp ht' with hmem | hone
            · exact htx t hmem
            · rw [List.mem_singleton.mp hone]
              exact ⟨rfl, fun _ => ha⟩

lemma ledgerInv_settle_approve (s : AppState) (i : Nat) (h : ledgerInv s) :
    ledgerInv ((process_transaction s i "approve").toOption.getD s) := by
  obtain ⟨heq, hnn, htx⟩ := h
  simp only [process_transaction]
  cases hg : s.transactions.get? i with
  | none => exact ⟨heq, hnn, htx⟩
  | some t =>
    obtain ⟨hlen, hget⟩ := List.get?_eq_some.mp hg
    have htmem : t ∈ s.transactions := List.get?_mem hg
    obtain ⟨huid, hpend⟩ := htx t htmem
    dsimp only
    by_cases h1 : (t.type != "withdraw") = true
    · rw [if_pos h1]; exact ⟨heq, hnn, htx⟩
    · rw [if_neg h1]
      have htype : t.type = "withdraw" := by simpa using h1
      by_cases h2 : (t.status != "pending") = true
      · rw [if_pos h2]; exact ⟨heq, hnn, htx⟩
      · rw [if_neg h2]
        have hstatus : t.status = "pending" := by simpa using h2
        have hpw : isPendingWithdrawal t = true := by
          simp [isPendingWithdrawal, htype, hstatus]
        have hcc : isCompletedCredit t = false := by
          simp [isCompletedCredit, hstatus]
        have hcd : isCompletedDebit t = false := by
          simp [isCompletedDebit, hstatus]
        rw [if_pos (show (("approve" : String) == "approve") = true from rfl)]
        set t' : Txn := { t with status := "completed" } with ht'
        have hcc' : isCompletedCredit t' = false := by
          simp [isCompletedCredit, ht', htype]
        have hcd' : isCompletedDebit t' = true := by
          simp [isCompletedDebit, ht', htype]
        have hpw' : isPendingWithdrawal t' = false := by
          simp [isPendingWithdrawal, ht']
        have e1 := sumAmounts_set isCompletedCredit s.transactions t' i hlen
        have e2 := sumAmounts_set isCompletedDebit s.transactions t' i hlen
        have e3 := sumAmounts_set isPendingWithdrawal s.transactions t' i hlen
        rw [hget, hcc, hcc'] at e1
        rw [hget, hcd, hcd'] at e2
        rw [hget, hpw, hpw'] at e3
        simp only [if_true, Bool.false_eq_true, if_false] at e1 e2 e3
        refine ⟨?_, hnn, ?_⟩
        · show s.user.balance
              = sumAmounts isCompletedCredit (s.transactions.set i t')
                - sumAmounts isCompletedDebit (s.transactions.set i t')
                - sumAmounts isPendingWithdrawal (s.transactions.set i t')
          linarith
        · intro u hu
          have hu' : u ∈ s.transactions.set i t' := hu
          rcases List.mem_or_eq_of_mem_set hu' with hmem | hone
          · exact htx u hmem
          · subst hone
            refine ⟨huid, fun hcontra => ?_⟩
            rw [hpw'] at hcontra
            exact absurd hcontra (by simp)

lemma ledgerInv_settle_reject (s : AppState) (i : Nat) (h : ledgerInv s) :
    ledgerInv ((process_transaction s i "reject").toOption.getD s) := by
  obtain ⟨heq, hnn, htx⟩ := h
  simp only [process_transaction]
  cases hg : s.transactions.get? i with
  | none => exact ⟨heq, hnn, htx⟩
  | some t =>
    obtain ⟨hlen, hget⟩ := List.get?_eq_some.mp hg
    have htmem : t ∈ s.transactions := List.get?_mem hg
    obtain ⟨huid, hpend⟩ := htx t htmem
    dsimp only
    by_cases h1 : (t.type != "withdraw") = true
    · rw [if_pos h1]; exact ⟨heq, hnn, htx⟩
    · rw [if_neg h1]
      have htype : t.type = "withdraw" := by simpa using h1
      by_cases h2 : (t.status != "pending") = true
      · rw [if_pos h2]; exact ⟨heq, hnn, htx⟩
      · rw [if_neg h2]
        have hstatus : t.status = "pending" := by simpa using h2
        have hpw : isPendingWithdrawal t = true := by
          simp [isPendingWithdrawal, htype, hstatus]
        have hcc : isCompletedCredit t = false := by
          simp [isCompletedCredit, hstatus]
        have hcd : isCompletedDebit t = false := by
          simp [isCompletedDebit, hstatus]
        have hamt : 0 ≤ t.amount := hpend hpw
        rw [if_neg (show ¬ ((("reject" : String) == "approve") = true) by decide),
            if_pos (show (("reject" : String) == "reject") = true from rfl)]
        set t' : Txn := { t with status := "failed" } with ht'
        have hcc' : isCompletedCredit t' = false := by
          simp [isCompletedCredit, ht']
        have hcd' : isCompletedDebit t' = false := by
          simp [isCompletedDebit, ht']
        have hpw' : isPendingWithdrawal t' = false := by
          simp [isPendingWithdrawal, ht']
        have e1 := sumAmounts_set isCompletedCredit s.transactions t' i hlen
        have e2 := sumAmounts_set isCompletedDebit s.transactions t' i hlen
        have e3 := sumAmounts_set isPendingWithdrawal s.transactions t' i hlen
        rw [hget, hcc, hcc'] at e1
        rw [hget, hcd, hcd'] at e2
        rw [hget, hpw, hpw'] at e3
        simp only [if_true, Bool.false_eq_true, if_false] at e1 e2 e3
        have hbeq : (t.user_id == s.user.id) = true := beq_iff_eq.mpr huid
        rw [if_pos hbeq]
        refine ⟨?_, ?_, ?_⟩
        · show s.user.balance + t.amount
              = sumAmounts isCompletedCredit (s.transactions.set i t')
                - sumAmounts isCompletedDebit (s.transactions.set i t')
                - sumAmounts isPendingWithdrawal (s.transactions.set i t')
          linarith
        · show 0 ≤ s.user.balance + t.amount
          linarith
        · intro u hu
          have hu' : u ∈ s.transactions.set i t' := hu
          rcases List.mem_or_eq_of_mem_set hu' with hmem | hone
          · exact htx u hmem
          · subst hone
            refine ⟨huid, fun hcontra => ?_⟩
            rw [hpw'] at hcontra
            exact absurd hcontra (by simp)

lemma ledgerInv_settle (s : AppState) (i : Nat) (ap : Bool) (h : ledgerInv s) :
    ledgerInv ((process_transaction s i
      (if ap then "approve" else "reject")).toOption.getD s) := by
  cases ap
  · exact ledgerInv_settle_reject s i h
  · exact ledgerInv_settle_approve s i h

lemma ledgerInv_applyOp (s : AppState) (op : LedgerOp)
    (hop : creditOk op = true) (h : ledgerInv s) : ledgerInv (applyOp s op) := by
  cases op with
  | credit a =>
    exact ledgerInv_credit s a (by simpa [creditOk] using hop) h
  | debit a => exact ledgerInv_debit s a h
  | reserve a => exact ledgerInv_reserve s a h
  | settle i ap => exact ledgerInv_settle s i ap h

lemma ledgerInv_applyOps (ops : List LedgerOp) :
    ∀ s : AppState, ledgerInv s → (∀ op ∈ ops, creditOk op = true) →
      ledgerInv (applyOps s ops) := by
  induction ops with
  | nil => intro s h _; exact h
  | cons op rest ih =>
    intro s h hv
    show ledgerInv (applyOps (applyOp s op) rest)
    exact ih _ (ledgerInv_applyOp s op (hv op (by simp)) h)
      (fun o ho => hv o (by simp [ho]))

/-- C3.  Starting from a fresh account, any sequence of credit, debit,
withdrawal-reserve and withdrawal-settle operations (credits carrying
non-negative amounts, as all source credits do) keeps the balance equal to
the sum of completed credit amounts minus the sum of completed debit
amounts minus the outstanding pending withdrawal reservations (which are
subtracted at reservation time and restored on rejection), and no prefix of
the sequence ever drives the balance below zero. -/
theorem c3_ledger_conservation :
    ∀ (uid : String) (ops : List LedgerOp),
      (∀ op ∈ ops, creditOk op = true) →
      ((applyOps (freshAccount uid) ops).user.balance
          = sumAmounts isCompletedCredit (applyOps (freshAccount uid) ops).transactions
            - sumAmounts isCompletedDebit (applyOps (freshAccount uid) ops).transactions
            - sumAmounts isPendingWithdrawal
                (applyOps (freshAccount uid) ops).transactions) ∧
      ∀ k : Nat, 0 ≤ (applyOps (freshAccount uid) (ops.take k)).user.balance := by
  intro uid ops hv
  constructor
  · exact (ledgerInv_applyOps ops _ (ledgerInv_freshAccount uid) hv).1
  · intro k
    exact (ledgerInv_applyOps (ops.take k) _ (ledgerInv_freshAccount uid)
      (fun op hop => hv op (List.take_subset k ops hop))).2.1

/-- C3 witness: a concrete run with a credit, a debit, a rejected
withdrawal and an approved withdrawal. -/
theorem c3_ledger_conservation_witness :
    (∀ op ∈ demoOps, creditOk op = true) ∧
    (((applyOps (freshAccount "u1") demoOps).user.balance
        = sumAmounts isCompletedCredit (applyOps (freshAccount "u1") demoOps).transactions
          - sumAmounts isCompletedDebit (applyOps (freshAccount "u1") demoOps).transactions
          - sumAmounts isPendingWithdrawal
              (applyOps (freshAccount "u1") demoOps).transactions) ∧
      ∀ k : Nat, 0 ≤ (applyOps (freshAccount "u1") (demoOps.take k)).user.balance) := by
  refine ⟨by decide, ?_⟩
  exact c3_ledger_conservation "u1" demoOps (by decide)

end

end Vevu
